import Mathlib

/-!
# Verification of the 3Dviewer time-alignment and rendering logic

Shallow embedding of the core logic of the 3Dviewer repository
(`DASView.py`, `MSView.py`, `VisualizeModel.py`) over rational numbers,
together with theorems settling the specification claims.
-/

namespace ThreeDViewer

/-! ## Model of `np.argmin` over a list of rationals

`numpy.argmin` returns the first index attaining the minimum value.
We model the minimum of a nonempty list and the first-occurrence argmin. -/

/-- Minimum value of a list of rationals (`0` on the empty list, which the
source never hits: `np.argmin` raises on empty input and the callers guard). -/
def listMin : List ℚ → ℚ
  | [] => 0
  | [x] => x
  | x :: y :: ys => min x (listMin (y :: ys))

/-- First index of the minimum value, as `np.argmin` computes it. -/
def np_argmin : List ℚ → Nat
  | [] => 0
  | [_] => 0
  | x :: y :: ys => if x ≤ listMin (y :: ys) then 0 else np_argmin (y :: ys) + 1

theorem listMin_cons (x : ℚ) (l : List ℚ) (h : l ≠ []) :
    listMin (x :: l) = min x (listMin l) := by
  cases l with
  | nil => exact absurd rfl h
  | cons y ys => rfl

theorem listMin_mem (l : List ℚ) (h : l ≠ []) : listMin l ∈ l := by
  induction l with
  | nil => exact absurd rfl h
  | cons x xs ih =>
    cases xs with
    | nil => simp [listMin]
    | cons y ys =>
      rw [listMin_cons x (y :: ys) (by simp)]
      rcases min_cases x (listMin (y :: ys)) with ⟨hmin, _⟩ | ⟨hmin, _⟩
      · rw [hmin]; exact List.mem_cons_self x (y :: ys)
      · rw [hmin]; exact List.mem_cons_of_mem x (ih (by simp))

theorem listMin_le (l : List ℚ) (x : ℚ) (hx : x ∈ l) : listMin l ≤ x := by
  induction l with
  | nil => simp at hx
  | cons a as ih =>
    cases as with
    | nil =>
      simp at hx
      simp [listMin, hx]
    | cons b bs =>
      rw [listMin_cons a (b :: bs) (by simp)]
      rcases List.mem_cons.mp hx with h | h
      · exact le_trans (min_le_left _ _) (le_of_eq h.symm)
      · exact le_trans (min_le_right _ _) (ih h)

theorem np_argmin_lt_length (l : List ℚ) (h : l ≠ []) : np_argmin l < l.length := by
  induction l with
  | nil => exact absurd rfl h
  | cons x xs ih =>
    cases xs with
    | nil => simp [np_argmin]
    | cons y ys =>
      rw [show np_argmin (x :: y :: ys)
            = if x ≤ listMin (y :: ys) then 0 else np_argmin (y :: ys) + 1 from rfl]
      by_cases hc : x ≤ listMin (y :: ys)
      · simp [hc]
      · simp only [hc, if_false, List.length_cons]
        exact Nat.succ_lt_succ (ih (by simp))

theorem getD_np_argmin (l : List ℚ) (h : l ≠ []) :
    l.getD (np_argmin l) 0 = listMin l := by
  induction l with
  | nil => exact absurd rfl h
  | cons x xs ih =>
    cases xs with
    | nil => simp [np_argmin, listMin]
    | cons y ys =>
      rw [show np_argmin (x :: y :: ys)
            = if x ≤ listMin (y :: ys) then 0 else np_argmin (y :: ys) + 1 from rfl,
          listMin_cons x (y :: ys) (by simp)]
      by_cases hc : x ≤ listMin (y :: ys)
      · simp [hc, min_eq_left hc]
      · push_neg at hc
        simp only [if_neg (not_le.mpr hc), List.getD_cons_succ]
        rw [ih (by simp), min_eq_right (le_of_lt hc)]

/-- Every index strictly before `np_argmin l` holds a strictly larger value:
`np.argmin` returns the first occurrence of the minimum. -/
theorem np_argmin_first (l : List ℚ) (j : Nat) (hj : j < np_argmin l) :
    listMin l < l.getD j 0 := by
  induction l generalizing j with
  | nil => simp [np_argmin] at hj
  | cons x xs ih =>
    cases xs with
    | nil => simp [np_argmin] at hj
    | cons y ys =>
      rw [show np_argmin (x :: y :: ys)
            = if x ≤ listMin (y :: ys) then 0 else np_argmin (y :: ys) + 1 from rfl] at hj
      by_cases hc : x ≤ listMin (y :: ys)
      · simp [hc] at hj
      · push_neg at hc
        simp only [if_neg (not_le.mpr hc)] at hj
        rw [listMin_cons x (y :: ys) (by simp), min_eq_right (le_of_lt hc)]
        cases j with
        | zero => simpa using hc
        | succ k =>
          simp only [List.getD_cons_succ]
          exact ih k (Nat.lt_of_succ_lt_succ hj)

/-- If the head is strictly below every later element, `np.argmin` returns 0. -/
theorem np_argmin_sorted_lt (l : List ℚ) (hs : l.Sorted (· < ·)) :
    np_argmin l = 0 := by
  cases l with
  | nil => rfl
  | cons x xs =>
    cases xs with
    | nil => rfl
    | cons y ys =>
      have hall : ∀ b ∈ y :: ys, x < b := (List.sorted_cons.mp hs).1
      have hx : x ≤ listMin (y :: ys) :=
        le_of_lt (hall _ (listMin_mem (y :: ys) (by simp)))
      simp [np_argmin, hx]

/-- If the list is strictly decreasing, `np.argmin` returns the last index. -/
theorem np_argmin_sorted_gt (l : List ℚ) (hs : l.Sorted (fun a b => b < a)) :
    np_argmin l = l.length - 1 := by
  induction l with
  | nil => rfl
  | cons x xs ih =>
    cases xs with
    | nil => rfl
    | cons y ys =>
      have hall : ∀ b ∈ y :: ys, b < x := (List.sorted_cons.mp hs).1
      have hlt : listMin (y :: ys) < x := hall _ (listMin_mem (y :: ys) (by simp))
      have : ¬ x ≤ listMin (y :: ys) := not_le.mpr hlt
      simp only [np_argmin, this, if_false, List.length_cons]
      rw [ih (List.sorted_cons.mp hs).2]
      simp

/-! ## DAS data sources and `DASPlot.find_nearest_das_time_index` (DASView.py)

A DAS data object (`Data2D_XT`) may carry a per-sample `datetime` attribute,
or a `start_time` epoch together with a `taxis` of second offsets, or neither.
Timestamps are modelled as rationals (seconds on an absolute scale). -/

/-- A DAS data source, with the attributes `find_nearest_das_time_index`
probes with `hasattr`. `none` models a missing attribute. -/
structure DASData where
  datetime : Option (List ℚ)
  start_time : Option ℚ
  taxis : Option (List ℚ)
  /-- Signal matrix, channel-major: one inner list per channel (row),
  one column per time sample, as in `data_obj.data`. -/
  dataMat : List (List ℚ) := []
  deriving Repr, DecidableEq

/-- Target time accepted by `find_nearest_das_time_index`: a datetime string
(already parsed to an absolute time), a numeric seconds offset, or anything
else (the unsupported-format branch). -/
inductive TargetTime where
  | str (t : ℚ)
  | num (t : ℚ)
  | other
  deriving Repr, DecidableEq

/-- The datetime-axis resolution of the string branch: use `datetime` when
present, else `start_time + taxis` offsets, else fail. -/
def resolveDatetimeAxis (d : DASData) : Option (List ℚ) :=
  match d.datetime with
  | some dts => some dts
  | none =>
    match d.start_time, d.taxis with
    | some st, some ta => some (ta.map (fun x => st + x))
    | _, _ => none

/-- `DASPlot.find_nearest_das_time_index`. The string branch resolves an
absolute datetime axis and takes `np.argmin` of the absolute differences;
the numeric branch reads `taxis` directly. Any failure (missing attribute,
empty axis — both raise in the source and are caught by the surrounding
`except`) yields `none`. -/
def find_nearest_das_time_index (d : DASData) (target : TargetTime) : Option Nat :=
  match target with
  | .str t =>
    match resolveDatetimeAxis d with
    | some axis =>
      if axis = [] then none
      else some (np_argmin (axis.map (fun x => |x - t|)))
    | none => none
  | .num t =>
    match d.taxis with
    | some ta =>
      if ta = [] then none
      else some (np_argmin (ta.map (fun x => |x - t|)))
    | none => none
  | .other => none

/-! ### Auxiliary list-order lemmas -/

theorem getD_map_absdiff (l : List ℚ) (t : ℚ) (j : Nat) (hj : j < l.length) :
    (l.map (fun x => |x - t|)).getD j 0 = |l.getD j 0 - t| := by
  rw [List.getD_eq_getElem _ _ (by simpa using hj), List.getD_eq_getElem _ _ hj,
    List.getElem_map]

theorem headD_mem (l : List ℚ) (h : l ≠ []) : l.headD 0 ∈ l := by
  cases l with
  | nil => exact absurd rfl h
  | cons a as => simp

theorem getD_last_mem (l : List ℚ) (h : l ≠ []) : l.getD (l.length - 1) 0 ∈ l := by
  have hlt : l.length - 1 < l.length := by
    cases l with
    | nil => exact absurd rfl h
    | cons a as => simp
  rw [List.getD_eq_getElem _ _ hlt]
  exact List.getElem_mem hlt

theorem sorted_headD_le (l : List ℚ) (hs : l.Sorted (· < ·)) (x : ℚ) (hx : x ∈ l) :
    l.headD 0 ≤ x := by
  cases l with
  | nil => simp at hx
  | cons a as =>
    rcases List.mem_cons.mp hx with h | h
    · simp [h]
    · simpa using le_of_lt ((List.sorted_cons.mp hs).1 x h)

theorem sorted_le_getD_last (l : List ℚ) (hs : l.Sorted (· < ·)) (x : ℚ) (hx : x ∈ l) :
    x ≤ l.getD (l.length - 1) 0 := by
  induction l generalizing x with
  | nil => simp at hx
  | cons a as ih =>
    cases as with
    | nil =>
      simp at hx
      simp [hx]
    | cons b bs =>
      have hlen : (a :: b :: bs).length - 1 = (b :: bs).length - 1 + 1 := by simp
      rw [hlen, List.getD_cons_succ]
      have htail : (b :: bs).Sorted (· < ·) := (List.sorted_cons.mp hs).2
      rcases List.mem_cons.mp hx with h | h
      · subst h
        exact le_of_lt (lt_of_lt_of_le
          ((List.sorted_cons.mp hs).1 b (by simp))
          (ih htail b (by simp)))
      · exact ih htail x h

/-! ### Claim C1 — nearest numeric time index minimizes the absolute difference -/

/-- C1: for every time axis and numeric target `t`, the numeric branch of
`find_nearest_das_time_index` returns an in-bounds index `i` whose sample
minimizes `|T[i] - t|`; no index has a strictly smaller difference, and every
index before `i` has a strictly larger difference (ties go to the lowest
index). -/
theorem nearest_numeric_minimizes (d : DASData) (taxis : List ℚ) (t : ℚ)
    (hta : d.taxis = some taxis) (hne : taxis ≠ []) :
    ∃ i, find_nearest_das_time_index d (TargetTime.num t) = some i ∧
      i < taxis.length ∧
      (∀ j, j < taxis.length → |taxis.getD i 0 - t| ≤ |taxis.getD j 0 - t|) ∧
      (∀ j, j < i → |taxis.getD i 0 - t| < |taxis.getD j 0 - t|) := by
  set diffs := taxis.map (fun x => |x - t|) with hdiffs
  have hdne : diffs ≠ [] := by
    simp [hdiffs, hne]
  have hdlen : diffs.length = taxis.length := by simp [hdiffs]
  refine ⟨np_argmin diffs, ?_, ?_, ?_, ?_⟩
  · simp [find_nearest_das_time_index, hta, hne, hdiffs]
  · rw [← hdlen]; exact np_argmin_lt_length diffs hdne
  · intro j hj
    have hi : np_argmin diffs < taxis.length := by
      rw [← hdlen]; exact np_argmin_lt_length diffs hdne
    rw [← getD_map_absdiff taxis t _ hi, ← getD_map_absdiff taxis t j hj, ← hdiffs,
      getD_np_argmin diffs hdne]
    apply listMin_le
    rw [List.getD_eq_getElem _ _ (by rw [hdlen]; exact hj)]
    exact List.getElem_mem _
  · intro j hj
    have hi : np_argmin diffs < taxis.length := by
      rw [← hdlen]; exact np_argmin_lt_length diffs hdne
    have hjlen : j < taxis.length := lt_trans hj hi
    rw [← getD_map_absdiff taxis t _ hi, ← getD_map_absdiff taxis t j hjlen, ← hdiffs,
      getD_np_argmin diffs hdne]
    exact np_argmin_first diffs j hj

/-- Witness for C1 at the spec scenario: axis `[0,1,2,3,4]`, target `2.6`. -/
theorem nearest_numeric_minimizes_witness :
    ∃ i, find_nearest_das_time_index
        (DASData.mk none none (some [0, 1, 2, 3, 4]) []) (TargetTime.num (13/5)) = some i ∧
      i < ([0, 1, 2, 3, 4] : List ℚ).length ∧
      (∀ j, j < ([0, 1, 2, 3, 4] : List ℚ).length →
        |([0, 1, 2, 3, 4] : List ℚ).getD i 0 - 13/5| ≤ |([0, 1, 2, 3, 4] : List ℚ).getD j 0 - 13/5|) ∧
      (∀ j, j < i →
        |([0, 1, 2, 3, 4] : List ℚ).getD i 0 - 13/5| < |([0, 1, 2, 3, 4] : List ℚ).getD j 0 - 13/5|) :=
  nearest_numeric_minimizes (DASData.mk none none (some [0, 1, 2, 3, 4]) [])
    [0, 1, 2, 3, 4] (13/5) rfl (by decide)

theorem pairwise_imp_of_mem {R S : ℚ → ℚ → Prop} (l : List ℚ)
    (h : ∀ a b, a ∈ l → b ∈ l → R a b → S a b) (hp : l.Pairwise R) : l.Pairwise S := by
  induction l with
  | nil => exact List.Pairwise.nil
  | cons x xs ih =>
    rcases List.pairwise_cons.mp hp with ⟨hx, hxs⟩
    exact List.Pairwise.cons
      (fun y hy => h x y (by simp) (List.mem_cons_of_mem _ hy) (hx y hy))
      (ih (fun a b ha hb => h a b (List.mem_cons_of_mem _ ha) (List.mem_cons_of_mem _ hb)) hxs)

/-! ### Claim C2 — targets outside the axis range clamp to the nearest endpoint -/

/-- C2: for a strictly increasing time axis and a numeric target strictly
outside the axis range, the numeric branch of `find_nearest_das_time_index`
returns index `0` (when the target lies below `T.min`) or index `N-1` (when it
lies above `T.max`), and the selected endpoint is the nearer one. -/
theorem nearest_numeric_outside_range (d : DASData) (taxis : List ℚ) (t : ℚ)
    (hta : d.taxis = some taxis) (hne : taxis ≠ [])
    (hsorted : taxis.Sorted (· < ·)) :
    (t < taxis.headD 0 →
      find_nearest_das_time_index d (TargetTime.num t) = some 0 ∧
      |taxis.headD 0 - t| ≤ |taxis.getD (taxis.length - 1) 0 - t|) ∧
    (taxis.getD (taxis.length - 1) 0 < t →
      find_nearest_das_time_index d (TargetTime.num t) = some (taxis.length - 1) ∧
      |taxis.getD (taxis.length - 1) 0 - t| ≤ |taxis.headD 0 - t|) := by
  set diffs := taxis.map (fun x => |x - t|) with hdiffs
  have hdne : diffs ≠ [] := by simp [hdiffs, hne]
  have hdlen : diffs.length = taxis.length := by simp [hdiffs]
  have hfind : find_nearest_das_time_index d (TargetTime.num t) = some (np_argmin diffs) := by
    simp [find_nearest_das_time_index, hta, hne, hdiffs]
  have hhead_le_last : taxis.headD 0 ≤ taxis.getD (taxis.length - 1) 0 :=
    sorted_le_getD_last taxis hsorted _ (headD_mem taxis hne)
  constructor
  · intro ht
    have hall : ∀ x ∈ taxis, t < x := fun x hx =>
      lt_of_lt_of_le ht (sorted_headD_le taxis hsorted x hx)
    have hpw : taxis.Pairwise (fun a b => |a - t| < |b - t|) := by
      refine pairwise_imp_of_mem taxis (fun a b ha hb hab => ?_) hsorted
      rw [abs_of_pos (sub_pos.mpr (hall a ha)), abs_of_pos (sub_pos.mpr (hall b hb))]
      exact sub_lt_sub_right hab t
    have hdsorted : diffs.Sorted (· < ·) := by
      rw [hdiffs]; exact (List.pairwise_map).mpr hpw
    refine ⟨by rw [hfind, np_argmin_sorted_lt diffs hdsorted], ?_⟩
    rw [abs_of_pos (sub_pos.mpr (hall _ (headD_mem taxis hne))),
      abs_of_pos (sub_pos.mpr (hall _ (getD_last_mem taxis hne)))]
    exact sub_le_sub_right hhead_le_last t
  · intro ht
    have hall : ∀ x ∈ taxis, x < t := fun x hx =>
      lt_of_le_of_lt (sorted_le_getD_last taxis hsorted x hx) ht
    have habs : ∀ x ∈ taxis, |x - t| = t - x := by
      intro x hx
      rw [abs_of_neg (sub_neg.mpr (hall x hx)), neg_sub]
    have hpw : taxis.Pairwise (fun a b => |b - t| < |a - t|) := by
      refine pairwise_imp_of_mem taxis (fun a b ha hb hab => ?_) hsorted
      rw [habs a ha, habs b hb]
      exact sub_lt_sub_left hab t
    have hdsorted : diffs.Sorted (fun a b => b < a) := by
      rw [hdiffs]; exact (List.pairwise_map).mpr hpw
    refine ⟨by rw [hfind, np_argmin_sorted_gt diffs hdsorted, hdlen], ?_⟩
    rw [habs _ (headD_mem taxis hne), habs _ (getD_last_mem taxis hne)]
    exact sub_le_sub_left hhead_le_last t

/-- Witness for C2: axis `[0,1,2,3,4]`, tried at concrete targets outside the
range on both sides (`-3` below, `10` above). -/
theorem nearest_numeric_outside_range_witness :
    ((-3 : ℚ) < ([0, 1, 2, 3, 4] : List ℚ).headD 0 →
      find_nearest_das_time_index
        (DASData.mk none none (some [0, 1, 2, 3, 4]) []) (TargetTime.num (-3)) = some 0 ∧
      |([0, 1, 2, 3, 4] : List ℚ).headD 0 - (-3)| ≤
        |([0, 1, 2, 3, 4] : List ℚ).getD (([0, 1, 2, 3, 4] : List ℚ).length - 1) 0 - (-3)|) ∧
    (([0, 1, 2, 3, 4] : List ℚ).getD (([0, 1, 2, 3, 4] : List ℚ).length - 1) 0 < (-3 : ℚ) →
      find_nearest_das_time_index
        (DASData.mk none none (some [0, 1, 2, 3, 4]) []) (TargetTime.num (-3))
          = some (([0, 1, 2, 3, 4] : List ℚ).length - 1) ∧
      |([0, 1, 2, 3, 4] : List ℚ).getD (([0, 1, 2, 3, 4] : List ℚ).length - 1) 0 - (-3)| ≤
        |([0, 1, 2, 3, 4] : List ℚ).headD 0 - (-3)|) :=
  nearest_numeric_outside_range (DASData.mk none none (some [0, 1, 2, 3, 4]) [])
    [0, 1, 2, 3, 4] (-3) rfl (by decide) (by decide)

/-! ## `DASPlot._create_single_trace` — signal selection and length reconciliation

The builder picks the signal (`data[:, time_index]` when a valid time index is
given, else `data.flatten()`), then forces it against the coordinate-array
length: with a time index it slices (`signal[:len(x_das)]`), otherwise it
tiles `len(x)//len(signal) + 1` copies and slices. -/

/-- `data.shape[1]`: the number of time columns of the (rectangular) matrix. -/
def ncols (m : List (List ℚ)) : Nat := (m.headD []).length

/-- `data[:, j]`: one sample per channel at time column `j`. -/
def matColumn (m : List (List ℚ)) (j : Nat) : List ℚ := m.map (fun row => row.getD j 0)

/-- `data.flatten()`: row-major flattening. -/
def matFlatten (m : List (List ℚ)) : List ℚ := m.flatten

/-- `np.tile(l, k)`: `k` concatenated copies of `l`. -/
def np_tile (l : List ℚ) : Nat → List ℚ
  | 0 => []
  | k + 1 => l ++ np_tile l k

/-- The `if selected_time is not None and time_index is None` prologue of
`_create_single_trace`: an explicit time index wins, otherwise the selected
time is resolved through `find_nearest_das_time_index` (a `None` result
leaves the time index unset). -/
def effective_time_index (d : DASData) (time_index : Option Nat)
    (selected_time : Option TargetTime) : Option Nat :=
  match time_index, selected_time with
  | none, some st => find_nearest_das_time_index d st
  | ti, _ => ti

/-- Signal selection of `_create_single_trace`: the time column when the
index is in range, the flattened matrix otherwise. -/
def select_signal (m : List (List ℚ)) (time_index : Option Nat) : List ℚ :=
  match time_index with
  | some ti => if ti < ncols m then matColumn m ti else matFlatten m
  | none => matFlatten m

/-- The `if len(signal) != len(x_das)` reconciliation of
`_create_single_trace`. Note the branch is chosen by whether `time_index`
is set, not by which signal was selected. -/
def reconcile_signal (time_index : Option Nat) (signal : List ℚ) (nx : Nat) : List ℚ :=
  if signal.length ≠ nx then
    match time_index with
    | some _ => signal.take nx
    | none => (np_tile signal (nx / signal.length + 1)).take nx
  else signal

/-- The signal actually placed on the emitted 3D trace, for a coordinate
array of length `nx`. -/
def trace_signal (d : DASData) (time_index : Option Nat) (nx : Nat) : List ℚ :=
  reconcile_signal time_index (select_signal d.dataMat time_index) nx

theorem np_tile_length (l : List ℚ) (k : Nat) : (np_tile l k).length = k * l.length := by
  induction k with
  | zero => simp [np_tile]
  | succ n ih => simp [np_tile, ih, Nat.succ_mul, Nat.add_comm]

/-! ### Claim C4 — length-mismatch reconciliation (corrected) -/

/-- C4 counterexample: in the time-indexed branch, a length-8 signal against
length-10 coordinates is sliced (staying at length 8), not tiled to 10 as the
claim states for both branches. The 8-channel, 2-column matrix exercises the
actual column-selection path of `_create_single_trace`. -/
theorem reconcile_timeindexed_counterexample :
    (trace_signal
        (DASData.mk none none (some [0, 1]) (List.replicate 8 [1, 2]))
        (some 0) 10).length ≠ 10 := by decide

/-- C4 amended: the trace builder never fails on a length mismatch; the
flattened branch (`time_index = None`) tiles then truncates the signal to
exactly the coordinate length, while the time-indexed branch only slices —
the emitted signal has length `min (len signal) (len coords)`, so a shorter
signal keeps its own length there. -/
theorem reconcile_signal_lengths (signal : List ℚ) (nx : Nat) (hne : signal ≠ []) :
    (reconcile_signal none signal nx).length = nx ∧
    (∀ ti, (reconcile_signal (some ti) signal nx).length = min signal.length nx) := by
  have hpos : 0 < signal.length := List.length_pos.mpr hne
  constructor
  · by_cases heq : signal.length = nx
    · simp [reconcile_signal, heq]
    · have htile : nx ≤ (np_tile signal (nx / signal.length + 1)).length := by
        rw [np_tile_length]
        calc nx = signal.length * (nx / signal.length) + nx % signal.length :=
              (Nat.div_add_mod nx signal.length).symm
          _ ≤ signal.length * (nx / signal.length) + signal.length :=
              Nat.add_le_add_left (le_of_lt (Nat.mod_lt nx hpos)) _
          _ = (nx / signal.length + 1) * signal.length := by ring
      simp only [reconcile_signal, if_pos heq, List.length_take]
      exact min_eq_left htile
  · intro ti
    by_cases heq : signal.length = nx
    · simp [reconcile_signal, heq]
    · simp only [reconcile_signal, if_pos heq, List.length_take]
      exact Nat.min_comm nx signal.length

/-- Witness for the amended C4 at the spec scenario: a length-8 signal against
10 coordinates. -/
theorem reconcile_signal_lengths_witness :
    (reconcile_signal none (List.replicate 8 (1 : ℚ)) 10).length = 10 ∧
    (∀ ti, (reconcile_signal (some ti) (List.replicate 8 (1 : ℚ)) 10).length
      = min (List.replicate 8 (1 : ℚ)).length 10) :=
  reconcile_signal_lengths (List.replicate 8 (1 : ℚ)) 10 (by decide)

/-! ### Claim C6 — missing time reference (corrected) -/

/-- C6 counterexample: a source with a `taxis` but neither `datetime` nor
`start_time` falls under the claim's "no resolvable time axis" condition
(it has neither `datetime` nor *both* `start_time` and `taxis`), yet a
numeric lookup succeeds instead of returning `None`. -/
theorem nearest_missing_reference_counterexample :
    (DASData.mk none none (some [0, 1, 2]) []).datetime = none ∧
    (DASData.mk none none (some [0, 1, 2]) []).start_time = none ∧
    find_nearest_das_time_index (DASData.mk none none (some [0, 1, 2]) [])
      (TargetTime.num 0) = some 0 ∧
    find_nearest_das_time_index (DASData.mk none none (some [0, 1, 2]) [])
      (TargetTime.num 0) ≠ none := by
  have h : find_nearest_das_time_index (DASData.mk none none (some [0, 1, 2]) [])
      (TargetTime.num 0) = some 0 := by
    norm_num [find_nearest_das_time_index, np_argmin, listMin]
    intro hc
    simp at hc
  exact ⟨rfl, rfl, h, by rw [h]; exact Option.some_ne_none 0⟩

/-- C6 amended: for datetime-string targets, a source with neither `datetime`
nor both `start_time` and `taxis` makes the lookup return `None` (never an
exception — the embedding is total); for numeric targets, the lookup returns
`None` when `taxis` is missing; and callers see a failed lookup as a no-op:
with the time index left unset, the trace builder falls back to the full
flattened signal. -/
theorem nearest_missing_reference_amended (d : DASData) (t : ℚ) :
    (d.datetime = none → d.start_time = none ∨ d.taxis = none →
      find_nearest_das_time_index d (TargetTime.str t) = none) ∧
    (d.taxis = none → find_nearest_das_time_index d (TargetTime.num t) = none) ∧
    (∀ st, find_nearest_das_time_index d st = none →
      select_signal d.dataMat (effective_time_index d none (some st)) = matFlatten d.dataMat) := by
  refine ⟨?_, ?_, ?_⟩
  · intro hdt hst
    have hres : resolveDatetimeAxis d = none := by
      unfold resolveDatetimeAxis
      rw [hdt]
      rcases hst with h | h
      · rw [h]
      · rw [h]
        cases d.start_time <;> rfl
    simp [find_nearest_das_time_index, hres]
  · intro hta
    simp [find_nearest_das_time_index, hta]
  · intro st hnone
    simp [effective_time_index, hnone, select_signal]

/-- Witness for the amended C6 at a concrete attribute-free source. -/
theorem nearest_missing_reference_amended_witness :
    ((DASData.mk none none none [[1, 2], [3, 4]]).datetime = none →
      (DASData.mk none none none [[1, 2], [3, 4]]).start_time = none ∨
        (DASData.mk none none none [[1, 2], [3, 4]]).taxis = none →
      find_nearest_das_time_index (DASData.mk none none none [[1, 2], [3, 4]])
        (TargetTime.str 5) = none) ∧
    ((DASData.mk none none none [[1, 2], [3, 4]]).taxis = none →
      find_nearest_das_time_index (DASData.mk none none none [[1, 2], [3, 4]])
        (TargetTime.num 5) = none) ∧
    (∀ st, find_nearest_das_time_index (DASData.mk none none none [[1, 2], [3, 4]]) st = none →
      select_signal (DASData.mk none none none [[1, 2], [3, 4]]).dataMat
          (effective_time_index (DASData.mk none none none [[1, 2], [3, 4]]) none (some st))
        = matFlatten (DASData.mk none none none [[1, 2], [3, 4]]).dataMat) :=
  nearest_missing_reference_amended (DASData.mk none none none [[1, 2], [3, 4]]) 5

/-! ## `DASPlot` colorbar range (DASView.py)

`set_colorbar_range` stores the value verbatim; `get_colorbar_range` uses a
stored two-element range verbatim and otherwise falls back to the min/max of
the full loaded dataset (`self.data.data.min()/.max()`). -/

/-- Maximum value of a list of rationals (`0` on the empty list; the source
raises on an empty dataset and the callers guard). -/
def listMax : List ℚ → ℚ
  | [] => 0
  | [x] => x
  | x :: y :: ys => max x (listMax (y :: ys))

theorem listMax_cons (x : ℚ) (l : List ℚ) (h : l ≠ []) :
    listMax (x :: l) = max x (listMax l) := by
  cases l with
  | nil => exact absurd rfl h
  | cons y ys => rfl

theorem listMax_mem (l : List ℚ) (h : l ≠ []) : listMax l ∈ l := by
  induction l with
  | nil => exact absurd rfl h
  | cons x xs ih =>
    cases xs with
    | nil => simp [listMax]
    | cons y ys =>
      rw [listMax_cons x (y :: ys) (by simp)]
      rcases max_cases x (listMax (y :: ys)) with ⟨hmax, _⟩ | ⟨hmax, _⟩
      · rw [hmax]; exact List.mem_cons_self x (y :: ys)
      · rw [hmax]; exact List.mem_cons_of_mem x (ih (by simp))

theorem le_listMax (l : List ℚ) (x : ℚ) (hx : x ∈ l) : x ≤ listMax l := by
  induction l with
  | nil => simp at hx
  | cons a as ih =>
    cases as with
    | nil =>
      simp at hx
      simp [listMax, hx]
    | cons b bs =>
      rw [listMax_cons a (b :: bs) (by simp)]
      rcases List.mem_cons.mp hx with h | h
      · exact le_trans (le_of_eq h) (le_max_left _ _)
      · exact le_trans (ih h) (le_max_right _ _)

/-- The colorbar state of a `DASPlot`: the stored `colorbar_range` (a Python
list or `None`) and the flattened values of the loaded dataset. -/
structure DASPlotCfg where
  colorbar_range : Option (List ℚ)
  dataVals : List ℚ
  deriving Repr, DecidableEq

/-- `DASPlot.set_colorbar_range`. -/
def set_colorbar_range (p : DASPlotCfg) (r : Option (List ℚ)) : DASPlotCfg :=
  { p with colorbar_range := r }

/-- `DASPlot.get_colorbar_range`: a stored truthy two-element range is
returned verbatim, anything else falls back to the dataset min/max. -/
def get_colorbar_range (p : DASPlotCfg) : ℚ × ℚ :=
  match p.colorbar_range with
  | some l =>
    if l ≠ [] ∧ l.length = 2 then (l.getD 0 0, l.getD 1 0)
    else (listMin p.dataVals, listMax p.dataVals)
  | none => (listMin p.dataVals, listMax p.dataVals)

/-! ### Claim C5 — colorbar range round-trip -/

/-- C5: setting an explicit range `[a, b]` round-trips exactly through
`get_colorbar_range`, and with no explicit range set the getter returns the
minimum and maximum of the full loaded dataset (genuinely the extrema: they
belong to the dataset and bound every value). -/
theorem colorbar_range_roundtrip (p : DASPlotCfg) (a b : ℚ)
    (hnone : p.colorbar_range = none) (hne : p.dataVals ≠ []) :
    get_colorbar_range (set_colorbar_range p (some [a, b])) = (a, b) ∧
    get_colorbar_range p = (listMin p.dataVals, listMax p.dataVals) ∧
    listMin p.dataVals ∈ p.dataVals ∧ listMax p.dataVals ∈ p.dataVals ∧
    (∀ x ∈ p.dataVals, listMin p.dataVals ≤ x ∧ x ≤ listMax p.dataVals) := by
  refine ⟨?_, ?_, listMin_mem _ hne, listMax_mem _ hne,
    fun x hx => ⟨listMin_le _ x hx, le_listMax _ x hx⟩⟩
  · simp [get_colorbar_range, set_colorbar_range]
  · simp [get_colorbar_range, hnone]

/-- Witness for C5 at a concrete plot state and range `(5, 7)`. -/
theorem colorbar_range_roundtrip_witness :
    get_colorbar_range (set_colorbar_range (DASPlotCfg.mk none [3, 1, 2]) (some [5, 7])) = (5, 7) ∧
    get_colorbar_range (DASPlotCfg.mk none [3, 1, 2])
      = (listMin [3, 1, 2], listMax [3, 1, 2]) ∧
    listMin [3, 1, 2] ∈ ([3, 1, 2] : List ℚ) ∧ listMax [3, 1, 2] ∈ ([3, 1, 2] : List ℚ) ∧
    (∀ x ∈ ([3, 1, 2] : List ℚ), listMin [3, 1, 2] ≤ x ∧ x ≤ listMax [3, 1, 2]) :=
  colorbar_range_roundtrip (DASPlotCfg.mk none [3, 1, 2]) 5 7 rfl (by decide)

/-! ## Interactive rebuild and camera preservation (VisualizeModel.py)

Each control event rebuilds the figure from the current configs; at the end
of `update_combined_plot` the `uirevision` is cleared and only a
`'scene.camera'` entry of the triggering `relayoutData` is reapplied. -/

/-- A Plotly camera position, kept abstract. -/
abbrev Camera := String

/-- The freshly built figure: its traces and its scene camera
(`none` = the Plotly default camera). -/
structure Figure where
  traces : List Nat
  camera : Option Camera
  deriving Repr, DecidableEq

/-- The `relayout_data and 'scene.camera' in relayout_data` probe followed by
the dictionary access `relayout_data['scene.camera']`. -/
def lookup_scene_camera (relayout : Option (List (String × Camera))) : Option Camera :=
  match relayout with
  | some rd =>
    match rd.lookup "scene.camera" with
    | some c => some c
    | none => none
  | none => none

/-- The figure emitted by `update_combined_plot`: traces rebuilt from the
current configs, default camera, then the camera from `relayoutData`
reapplied when present. -/
def build_combined_figure (traces : List Nat)
    (relayout : Option (List (String × Camera))) : Figure :=
  let fig : Figure := { traces := traces, camera := none }
  match lookup_scene_camera relayout with
  | some c => { fig with camera := some c }
  | none => fig

/-! ### Claim C3 — camera is the only state carried across rebuilds -/

/-- C3: on a rebuild, a previously-observed camera in the incoming relayout
data is reapplied exactly; without one the figure keeps the default camera;
the traces are exactly the freshly built ones; and the output depends on the
relayout data only through its `'scene.camera'` entry (so no other piece of
previous-figure state is carried over). -/
theorem camera_preservation (traces : List Nat)
    (relayout : Option (List (String × Camera))) :
    (∀ c, lookup_scene_camera relayout = some c →
      (build_combined_figure traces relayout).camera = some c) ∧
    (lookup_scene_camera relayout = none →
      (build_combined_figure traces relayout).camera = none) ∧
    (build_combined_figure traces relayout).traces = traces ∧
    (∀ r2, lookup_scene_camera relayout = lookup_scene_camera r2 →
      build_combined_figure traces relayout = build_combined_figure traces r2) := by
  refine ⟨fun c hc => ?_, fun hc => ?_, ?_, fun r2 h2 => ?_⟩
  · simp [build_combined_figure, hc]
  · simp [build_combined_figure, hc]
  · cases h : lookup_scene_camera relayout <;> simp [build_combined_figure, h]
  · simp [build_combined_figure, h2]

/-- Witness for C3 at a concrete rebuild whose relayout data carries a
camera. -/
theorem camera_preservation_witness :
    ((∀ c, lookup_scene_camera (some [("scene.camera", "cam1")]) = some c →
      (build_combined_figure [1, 2] (some [("scene.camera", "cam1")])).camera = some c) ∧
    (lookup_scene_camera (some [("scene.camera", "cam1")]) = none →
      (build_combined_figure [1, 2] (some [("scene.camera", "cam1")])).camera = none) ∧
    (build_combined_figure [1, 2] (some [("scene.camera", "cam1")])).traces = [1, 2] ∧
    (∀ r2, lookup_scene_camera (some [("scene.camera", "cam1")]) = lookup_scene_camera r2 →
      build_combined_figure [1, 2] (some [("scene.camera", "cam1")])
        = build_combined_figure [1, 2] r2)) ∧
    (build_combined_figure [1, 2] (some [("scene.camera", "cam1")])).camera = some "cam1" :=
  ⟨camera_preservation [1, 2] (some [("scene.camera", "cam1")]), by rfl⟩

/-! ## `MSPlot` (MSView.py)

The microseismic catalog and the `create_plot` pipeline: take the first 101
rows, sort them by origin time, freeze an unset time window to the subset's
min/max origin time (mutating the plot object), filter to the window, and
emit markers sized `abs(attribute) * 100`. -/

/-- One catalog row, with the columns `create_plot` reads. -/
structure MSEvent where
  time : ℚ
  easting : ℚ
  northing : ℚ
  depth : ℚ
  brune : ℚ
  stage : ℚ
  deriving Repr, DecidableEq, Inhabited

/-- The numeric attributes usable for size encoding. -/
inductive MSAttr where
  | bruneMagnitude
  | stage
  deriving Repr, DecidableEq

def attrVal : MSAttr → MSEvent → ℚ
  | .bruneMagnitude, e => e.brune
  | .stage, e => e.stage

/-- The `MSPlot` state touched by `create_plot`. -/
structure MSPlotState where
  data : List MSEvent
  size_by : MSAttr
  size_range : List ℚ
  plot_start_time : Option ℚ
  plot_end_time : Option ℚ
  deriving Repr, DecidableEq

/-- `MSPlot.set_sizerange`. -/
def set_sizerange (p : MSPlotState) (r : List ℚ) : MSPlotState :=
  { p with size_range := r }

/-- Insertion into a time-ordered list. -/
def insertEvent (e : MSEvent) : List MSEvent → List MSEvent
  | [] => [e]
  | x :: xs => if e.time ≤ x.time then e :: x :: xs else x :: insertEvent e xs

/-- `sort_values(by='Origin DateTime')`, modelled as insertion sort (the
claims below only depend on the sorted output being a reordering of the
input rows). -/
def sortByTime : List MSEvent → List MSEvent
  | [] => []
  | x :: xs => insertEvent x (sortByTime xs)

def eventTimesMin (l : List MSEvent) : ℚ := listMin (l.map (·.time))

def eventTimesMax (l : List MSEvent) : ℚ := listMax (l.map (·.time))

/-- `MSPlot.create_plot`, as a state transition: it returns the updated plot
object (the time window may be frozen) and the rows actually rendered. -/
def create_plot_model (p : MSPlotState) : MSPlotState × List MSEvent :=
  let df100 := p.data.take 101
  let sorted := sortByTime df100
  let st :=
    match p.plot_start_time with
    | some s => s
    | none => eventTimesMin sorted
  let en :=
    match p.plot_end_time with
    | some e => e
    | none => eventTimesMax sorted
  let filtered := sorted.filter (fun e => decide (st ≤ e.time ∧ e.time ≤ en))
  ({ p with plot_start_time := some st, plot_end_time := some en }, filtered)

/-- The marker sizes of the emitted scatter trace:
`abs(df_filtered[self.size_by]) * 100`. -/
def create_plot_sizes (p : MSPlotState) : List ℚ :=
  ((create_plot_model p).2).map (fun e => |attrVal p.size_by e| * 100)

theorem mem_insertEvent (e x : MSEvent) (l : List MSEvent) :
    x ∈ insertEvent e l ↔ x = e ∨ x ∈ l := by
  induction l with
  | nil => simp [insertEvent]
  | cons a as ih =>
    by_cases h : e.time ≤ a.time
    · simp [insertEvent, h]
    · simp [insertEvent, h, ih]
      tauto

theorem mem_sortByTime (x : MSEvent) (l : List MSEvent) :
    x ∈ sortByTime l ↔ x ∈ l := by
  induction l with
  | nil => simp [sortByTime]
  | cons a as ih => simp [sortByTime, mem_insertEvent, ih]

theorem length_insertEvent (e : MSEvent) (l : List MSEvent) :
    (insertEvent e l).length = l.length + 1 := by
  induction l with
  | nil => rfl
  | cons a as ih =>
    by_cases h : e.time ≤ a.time
    · simp [insertEvent, h]
    · simp [insertEvent, h, ih]

theorem length_sortByTime (l : List MSEvent) :
    (sortByTime l).length = l.length := by
  induction l with
  | nil => rfl
  | cons a as ih => simp [sortByTime, length_insertEvent, ih]

theorem listMin_eq_of_mem_le (l : List ℚ) (m : ℚ) (hm : m ∈ l)
    (hle : ∀ x ∈ l, m ≤ x) : listMin l = m :=
  le_antisymm (listMin_le l m hm) (hle _ (listMin_mem l (List.ne_nil_of_mem hm)))

theorem listMax_eq_of_mem_le (l : List ℚ) (m : ℚ) (hm : m ∈ l)
    (hle : ∀ x ∈ l, x ≤ m) : listMax l = m :=
  le_antisymm (hle _ (listMax_mem l (List.ne_nil_of_mem hm))) (le_listMax l m hm)

theorem eventTimesMin_sortByTime (l : List MSEvent) :
    eventTimesMin (sortByTime l) = eventTimesMin l := by
  cases hl : l with
  | nil => simp [sortByTime, eventTimesMin]
  | cons a as =>
    have hne : l ≠ [] := by simp [hl]
    rw [← hl]
    have hmapne : l.map (·.time) ≠ [] := by
      simpa using hne
    have hmem : eventTimesMin l ∈ (sortByTime l).map (·.time) := by
      rcases List.mem_map.mp (listMin_mem _ hmapne) with ⟨e, he, het⟩
      exact List.mem_map.mpr ⟨e, (mem_sortByTime e l).mpr he, het⟩
    refine listMin_eq_of_mem_le _ _ hmem ?_
    intro x hx
    rcases List.mem_map.mp hx with ⟨e, he, het⟩
    exact het ▸ listMin_le _ _ (List.mem_map.mpr ⟨e, (mem_sortByTime e l).mp he, rfl⟩)

theorem eventTimesMax_sortByTime (l : List MSEvent) :
    eventTimesMax (sortByTime l) = eventTimesMax l := by
  cases hl : l with
  | nil => simp [sortByTime, eventTimesMax]
  | cons a as =>
    have hne : l ≠ [] := by simp [hl]
    rw [← hl]
    have hmapne : l.map (·.time) ≠ [] := by
      simpa using hne
    have hmem : eventTimesMax l ∈ (sortByTime l).map (·.time) := by
      rcases List.mem_map.mp (listMax_mem _ hmapne) with ⟨e, he, het⟩
      exact List.mem_map.mpr ⟨e, (mem_sortByTime e l).mpr he, het⟩
    refine listMax_eq_of_mem_le _ _ hmem ?_
    intro x hx
    rcases List.mem_map.mp hx with ⟨e, he, het⟩
    exact het ▸ le_listMax _ _ (List.mem_map.mpr ⟨e, (mem_sortByTime e l).mp he, rfl⟩)

theorem getD_map_event (l : List MSEvent) (f : MSEvent → ℚ) (j : Nat) (hj : j < l.length) :
    (l.map f).getD j 0 = f (l.getD j default) := by
  rw [List.getD_eq_getElem _ _ (by simpa using hj), List.getD_eq_getElem _ _ hj,
    List.getElem_map]

/-! ### Claim C7 — marker size is `abs(attribute) * 100`, size range unused -/

/-- C7: every rendered MS marker size is the absolute value of the configured
size-by attribute times the fixed multiplier 100, and the configured size
range (`set_sizerange` / `size_range`) has no effect on the computed sizes. -/
theorem ms_marker_sizes (p : MSPlotState) (r : List ℚ) :
    create_plot_sizes (set_sizerange p r) = create_plot_sizes p ∧
    (∀ j, j < (create_plot_model p).2.length →
      (create_plot_sizes p).getD j 0
        = |attrVal p.size_by ((create_plot_model p).2.getD j default)| * 100) := by
  constructor
  · rfl
  · intro j hj
    exact getD_map_event _ _ j hj

/-- Witness for C7 at a concrete two-event catalog and size range `[1, 2]`. -/
theorem ms_marker_sizes_witness :
    create_plot_sizes (set_sizerange
        (MSPlotState.mk [MSEvent.mk 1 0 0 0 (-2) 3, MSEvent.mk 2 0 0 0 1 4]
          MSAttr.bruneMagnitude [10, 100] none none) [1, 2])
      = create_plot_sizes
        (MSPlotState.mk [MSEvent.mk 1 0 0 0 (-2) 3, MSEvent.mk 2 0 0 0 1 4]
          MSAttr.bruneMagnitude [10, 100] none none) ∧
    (∀ j, j < (create_plot_model
        (MSPlotState.mk [MSEvent.mk 1 0 0 0 (-2) 3, MSEvent.mk 2 0 0 0 1 4]
          MSAttr.bruneMagnitude [10, 100] none none)).2.length →
      (create_plot_sizes
        (MSPlotState.mk [MSEvent.mk 1 0 0 0 (-2) 3, MSEvent.mk 2 0 0 0 1 4]
          MSAttr.bruneMagnitude [10, 100] none none)).getD j 0
        = |attrVal MSAttr.bruneMagnitude ((create_plot_model
            (MSPlotState.mk [MSEvent.mk 1 0 0 0 (-2) 3, MSEvent.mk 2 0 0 0 1 4]
              MSAttr.bruneMagnitude [10, 100] none none)).2.getD j default)| * 100) :=
  ms_marker_sizes
    (MSPlotState.mk [MSEvent.mk 1 0 0 0 (-2) 3, MSEvent.mk 2 0 0 0 1 4]
      MSAttr.bruneMagnitude [10, 100] none none) [1, 2]

/-! ### Claim C10 — only the first 101 rows are rendered; unset windows freeze -/

/-- C10: `create_plot` renders only rows drawn from the first 101 catalog
rows (at most 101 of them, whatever the window); an unset start/end time is
overwritten with the min/max origin time of that 101-row subset, a set one is
kept verbatim; hence a second render keeps the frozen window instead of
re-deriving it. -/
theorem create_plot_first_101 (p : MSPlotState) :
    (∀ e ∈ (create_plot_model p).2, e ∈ p.data.take 101) ∧
    (create_plot_model p).2.length ≤ 101 ∧
    (p.plot_start_time = none →
      (create_plot_model p).1.plot_start_time = some (eventTimesMin (p.data.take 101))) ∧
    (p.plot_end_time = none →
      (create_plot_model p).1.plot_end_time = some (eventTimesMax (p.data.take 101))) ∧
    (∀ s, p.plot_start_time = some s → (create_plot_model p).1.plot_start_time = some s) ∧
    (∀ s, p.plot_end_time = some s → (create_plot_model p).1.plot_end_time = some s) ∧
    (create_plot_model ((create_plot_model p).1)).1.plot_start_time
      = (create_plot_model p).1.plot_start_time ∧
    (create_plot_model ((create_plot_model p).1)).1.plot_end_time
      = (create_plot_model p).1.plot_end_time := by
  refine ⟨?_, ?_, ?_, ?_, ?_, ?_, ?_, ?_⟩
  · intro e he
    have h1 : e ∈ sortByTime (p.data.take 101) := List.mem_of_mem_filter he
    exact (mem_sortByTime e _).mp h1
  · calc (create_plot_model p).2.length
        ≤ (sortByTime (p.data.take 101)).length := List.length_filter_le _ _
      _ = (p.data.take 101).length := length_sortByTime _
      _ ≤ 101 := List.length_take_le 101 p.data
  · intro h
    simp [create_plot_model, h, eventTimesMin_sortByTime]
  · intro h
    simp [create_plot_model, h, eventTimesMax_sortByTime]
  · intro s h
    simp [create_plot_model, h]
  · intro s h
    simp [create_plot_model, h]
  · simp [create_plot_model]
  · simp [create_plot_model]

/-- Witness for C10 at a concrete two-event catalog with an unset window. -/
theorem create_plot_first_101_witness :
    (∀ e ∈ (create_plot_model
        (MSPlotState.mk [MSEvent.mk 1 0 0 0 (-2) 3, MSEvent.mk 2 0 0 0 1 4]
          MSAttr.bruneMagnitude [10, 100] none none)).2,
      e ∈ ([MSEvent.mk 1 0 0 0 (-2) 3, MSEvent.mk 2 0 0 0 1 4] : List MSEvent).take 101) ∧
    (create_plot_model
        (MSPlotState.mk [MSEvent.mk 1 0 0 0 (-2) 3, MSEvent.mk 2 0 0 0 1 4]
          MSAttr.bruneMagnitude [10, 100] none none)).2.length ≤ 101 ∧
    ((MSPlotState.mk [MSEvent.mk 1 0 0 0 (-2) 3, MSEvent.mk 2 0 0 0 1 4]
        MSAttr.bruneMagnitude [10, 100] none none).plot_start_time = none →
      (create_plot_model
        (MSPlotState.mk [MSEvent.mk 1 0 0 0 (-2) 3, MSEvent.mk 2 0 0 0 1 4]
          MSAttr.bruneMagnitude [10, 100] none none)).1.plot_start_time
        = some (eventTimesMin
            (([MSEvent.mk 1 0 0 0 (-2) 3, MSEvent.mk 2 0 0 0 1 4] : List MSEvent).take 101))) ∧
    ((MSPlotState.mk [MSEvent.mk 1 0 0 0 (-2) 3, MSEvent.mk 2 0 0 0 1 4]
        MSAttr.bruneMagnitude [10, 100] none none).plot_end_time = none →
      (create_plot_model
        (MSPlotState.mk [MSEvent.mk 1 0 0 0 (-2) 3, MSEvent.mk 2 0 0 0 1 4]
          MSAttr.bruneMagnitude [10, 100] none none)).1.plot_end_time
        = some (eventTimesMax
            (([MSEvent.mk 1 0 0 0 (-2) 3, MSEvent.mk 2 0 0 0 1 4] : List MSEvent).take 101))) ∧
    (∀ s, (MSPlotState.mk [MSEvent.mk 1 0 0 0 (-2) 3, MSEvent.mk 2 0 0 0 1 4]
        MSAttr.bruneMagnitude [10, 100] none none).plot_start_time = some s →
      (create_plot_model
        (MSPlotState.mk [MSEvent.mk 1 0 0 0 (-2) 3, MSEvent.mk 2 0 0 0 1 4]
          MSAttr.bruneMagnitude [10, 100] none none)).1.plot_start_time = some s) ∧
    (∀ s, (MSPlotState.mk [MSEvent.mk 1 0 0 0 (-2) 3, MSEvent.mk 2 0 0 0 1 4]
        MSAttr.bruneMagnitude [10, 100] none none).plot_end_time = some s →
      (create_plot_model
        (MSPlotState.mk [MSEvent.mk 1 0 0 0 (-2) 3, MSEvent.mk 2 0 0 0 1 4]
          MSAttr.bruneMagnitude [10, 100] none none)).1.plot_end_time = some s) ∧
    (create_plot_model ((create_plot_model
        (MSPlotState.mk [MSEvent.mk 1 0 0 0 (-2) 3, MSEvent.mk 2 0 0 0 1 4]
          MSAttr.bruneMagnitude [10, 100] none none)).1)).1.plot_start_time
      = (create_plot_model
        (MSPlotState.mk [MSEvent.mk 1 0 0 0 (-2) 3, MSEvent.mk 2 0 0 0 1 4]
          MSAttr.bruneMagnitude [10, 100] none none)).1.plot_start_time ∧
    (create_plot_model ((create_plot_model
        (MSPlotState.mk [MSEvent.mk 1 0 0 0 (-2) 3, MSEvent.mk 2 0 0 0 1 4]
          MSAttr.bruneMagnitude [10, 100] none none)).1)).1.plot_end_time
      = (create_plot_model
        (MSPlotState.mk [MSEvent.mk 1 0 0 0 (-2) 3, MSEvent.mk 2 0 0 0 1 4]
          MSAttr.bruneMagnitude [10, 100] none none)).1.plot_end_time :=
  create_plot_first_101
    (MSPlotState.mk [MSEvent.mk 1 0 0 0 (-2) 3, MSEvent.mk 2 0 0 0 1 4]
      MSAttr.bruneMagnitude [10, 100] none none)

/-! ## MS time-range slider fix-up (`update_combined_plot`, VisualizeModel.py)

The callback clamps both slider indices to `[0, N-1]` with
`max(0, min(idx, len(sorted_times) - 1))` and then reads the start time at
`min(start_idx, end_idx)` and the end time at `max(start_idx, end_idx)`. -/

/-- `max(0, min(idx, n - 1))`. Slider values are modelled as integers so that
out-of-bounds and negative inputs are covered. -/
def clamp_idx (i : Int) (n : Nat) : Int := max 0 (min i ((n : Int) - 1))

/-- The clamping and ordering fix-up applied to the `(start_idx, end_idx)`
slider pair: the final indices are the min and max of the clamped pair. -/
def slider_range_fixup (time_range : Int × Int) (n : Nat) : Int × Int :=
  let s := clamp_idx time_range.1 n
  let e := clamp_idx time_range.2 n
  (min s e, max s e)

/-! ### Claim C9 — the fixed-up range is always well-ordered and in-bounds -/

/-- C9: for every slider pair (reversed and out-of-bounds included), the
fixed-up indices satisfy `start_idx_final ≤ end_idx_final` and lie in
`[0, N-1]`, and on a nondecreasing sorted-times list the selected start time
is at most the selected end time. The callback reaches this code only behind
the `len(sorted_times) == 0` guard, hence `0 < n`. -/
theorem slider_range_wellordered (time_range : Int × Int) (n : Nat) (hn : 0 < n)
    (ts : List ℚ) (hlen : ts.length = n) (hs : ts.Sorted (· ≤ ·)) :
    (slider_range_fixup time_range n).1 ≤ (slider_range_fixup time_range n).2 ∧
    0 ≤ (slider_range_fixup time_range n).1 ∧
    (slider_range_fixup time_range n).2 ≤ (n : Int) - 1 ∧
    ts.getD (slider_range_fixup time_range n).1.toNat 0
      ≤ ts.getD (slider_range_fixup time_range n).2.toNat 0 := by
  set s := clamp_idx time_range.1 n with hsdef
  set e := clamp_idx time_range.2 n with hedef
  have hfix : slider_range_fixup time_range n = (min s e, max s e) := rfl
  have hle : min s e ≤ max s e := le_trans (min_le_left s e) (le_max_left s e)
  have hs0 : 0 ≤ s := le_max_left 0 _
  have he0 : 0 ≤ e := le_max_left 0 _
  have hmin0 : 0 ≤ min s e := le_min hs0 he0
  have hn1 : (0 : Int) ≤ (n : Int) - 1 := by
    have : (1 : Int) ≤ (n : Int) := by exact_mod_cast hn
    omega
  have hmax : max s e ≤ (n : Int) - 1 :=
    max_le (max_le hn1 (min_le_right _ _)) (max_le hn1 (min_le_right _ _))
  refine ⟨by rw [hfix]; exact hle, by rw [hfix]; exact hmin0, by rw [hfix]; exact hmax, ?_⟩
  rw [hfix]
  have ha : (min s e).toNat < ts.length := by
    rw [hlen]
    omega
  have hb : (max s e).toNat < ts.length := by
    rw [hlen]
    omega
  have hab : (min s e).toNat ≤ (max s e).toNat := Int.toNat_le_toNat hle
  rw [List.getD_eq_getElem _ _ ha, List.getD_eq_getElem _ _ hb]
  rcases Nat.lt_or_ge (min s e).toNat (max s e).toNat with hlt | hge
  · exact List.pairwise_iff_getElem.mp hs _ _ ha hb hlt
  · have heq : (min s e).toNat = (max s e).toNat := le_antisymm hab hge
    simp [heq]

/-- Witness for C9 at a reversed, out-of-bounds slider pair `(7, -2)` on a
five-sample axis. -/
theorem slider_range_wellordered_witness :
    (slider_range_fixup (7, -2) 5).1 ≤ (slider_range_fixup (7, -2) 5).2 ∧
    0 ≤ (slider_range_fixup (7, -2) 5).1 ∧
    (slider_range_fixup (7, -2) 5).2 ≤ (5 : Int) - 1 ∧
    ([1, 2, 3, 4, 5] : List ℚ).getD (slider_range_fixup (7, -2) 5).1.toNat 0
      ≤ ([1, 2, 3, 4, 5] : List ℚ).getD (slider_range_fixup (7, -2) 5).2.toNat 0 :=
  slider_range_wellordered (7, -2) 5 (by decide) [1, 2, 3, 4, 5] (by decide) (by decide)

/-! ## Cross-dataset fallback mappings (VisualizeModel.py)

When mapping the MS-synced DAS slider index to the DAS dataset fails (e.g.
missing start epoch), `update_combined_plot` falls back to
`int(das_slider_idx * das_range / ms_range)` with `das_range = len(taxis)`,
while `update_das_image` falls back to
`(das_slider_idx / len(times_filtered)) * (taxis[-1] - taxis[0])`, a
proportional center *time*. -/

/-- The claim's formula `int(source_index * (len(target_axis) / len(source_axis)))`,
in exact arithmetic. -/
def spec_proportional_map (src_idx tgt_len src_len : Nat) : Int :=
  Int.floor ((src_idx : ℚ) * ((tgt_len : ℚ) / (src_len : ℚ)))

/-- The fallback of `update_combined_plot`:
`das_time_idx = int(das_slider_idx * das_range / ms_range)` with
`das_range = len(taxis)` and `ms_range = len(times_filtered)`. -/
def combined_plot_fallback_idx (das_slider_idx das_len ms_len : Nat) : Int :=
  Int.floor (((das_slider_idx : ℚ) * (das_len : ℚ)) / (ms_len : ℚ))

/-- The fallback of `update_das_image`:
`center_time = (das_slider_idx / len(times_filtered)) * das_range` with
`das_range = current_das_times[-1] - current_das_times[0]`. -/
def das_image_fallback_center_time (das_slider_idx ms_len : Nat) (taxis : List ℚ) : ℚ :=
  ((das_slider_idx : ℚ) / (ms_len : ℚ)) * (taxis.getLastD 0 - taxis.headD 0)

/-! ### Claim C8 — the two fallbacks do not compute the same thing (corrected) -/

/-- C8 counterexample: on the axis `[0, 10, 20, 30]` (4 samples) with 2
filtered MS times and slider index 1, the `update_das_image` fallback yields
the proportional center time `15`, not the claim's proportional index
`int(1 * 4 / 2) = 2`. -/
theorem das_image_fallback_counterexample :
    das_image_fallback_center_time 1 2 [0, 10, 20, 30] = 15 ∧
    spec_proportional_map 1 4 2 = 2 ∧
    das_image_fallback_center_time 1 2 [0, 10, 20, 30]
      ≠ ((spec_proportional_map 1 4 2 : Int) : ℚ) := by
  have h1 : das_image_fallback_center_time 1 2 [0, 10, 20, 30] = 15 := by
    norm_num [das_image_fallback_center_time]
  have h2 : spec_proportional_map 1 4 2 = 2 := by
    norm_num [spec_proportional_map]
  refine ⟨h1, h2, ?_⟩
  rw [h1, h2]
  norm_num

/-- C8 amended: only the `update_combined_plot` fallback computes the
proportional index of the claim — and there it agrees exactly with
`int(source_index * (len(target_axis) / len(source_axis)))`; the
`update_das_image` fallback instead computes the proportional center time
`(slider_idx / ms_len) * (taxis[-1] - taxis[0])`, which it passes on as a
selected time, not as an index. -/
theorem proportional_fallbacks_amended (i dl ml : Nat) (taxis : List ℚ) :
    combined_plot_fallback_idx i dl ml = spec_proportional_map i dl ml ∧
    das_image_fallback_center_time i ml taxis
      = ((i : ℚ) / (ml : ℚ)) * (taxis.getLastD 0 - taxis.headD 0) := by
  constructor
  · unfold combined_plot_fallback_idx spec_proportional_map
    rw [mul_div_assoc]
  · rfl

end ThreeDViewer
